import Mathlib

/-!
# Verification of the ai-news-aggregator ingestion / processing / digest pipeline

Shallow embedding of the core pipeline of the repository:

* `app/models/article.py`   — `ContentItem` (raw items) and `Article` (processed records),
  content-hash normalization (`generate_content_hash`), word count.
* `app/agents/content_fetcher.py` — `ContentFetcherAgent._save_content_item` (two-tier
  dedup: external id, then content hash; in-place upgrade of thin records) and the
  per-item statistics loop of `_fetch_from_rss` / `_fetch_from_youtube`.
* `app/agents/content_processor.py` — `ContentProcessorAgent._process_item` /
  `process_all` (summarize, score, create one Article per ContentItem, mark processed).
* `app/agents/digest_generator.py` — `DigestGeneratorAgent._get_articles_for_digest`,
  `generate_digest`, `_mark_articles_included`, `preview_digest`.
* `jobs/daily_digest.py` — `main` (orchestrator exit codes).

The database session is modelled as explicit state (lists of records); external
collaborators (SHA-256, the Gemini summarizer, the mailer) are parameters.  SHA-256 is
modelled as an arbitrary function `hash : String → String` applied to the normalized
text — the source's hash is a deterministic function of that text, which is all the
dedup logic relies on.  Python truthiness of strings (empty string is falsy) is
modelled explicitly.  `String.toLower` / `Char.isWhitespace` approximate Python's
Unicode `.lower()` / `.split()` at the ASCII level.
-/

/-- Python truthiness for an optional string: `None` and `""` are falsy. -/
def truthy : Option String → Option String
  | none => none
  | some s => if s = "" then none else some s

/-- A raw item payload as handed to `_save_content_item` by the RSS / YouTube
services (`data` dict).  Absent keys are `none`; `title` defaults to `""` as in
`data.get('title', '')`. -/
structure RawData where
  ident : Option String
  link : Option String
  title : String
  content : Option String
  transcript : Option String
  description : Option String
  publishedAt : Int
deriving Repr, DecidableEq

/-- `external_id = data.get('id') or data.get('link')`, followed by the
`if not external_id` truthiness rejection: the usable external id, if any. -/
def externalIdOf (d : RawData) : Option String :=
  truthy (match truthy d.ident with
    | some s => some s
    | none => d.link)

/-- `data.get('content') or data.get('transcript', '')` (Python `or` on strings). -/
def rawContent (d : RawData) : String :=
  match truthy d.content with
  | some s => s
  | none => d.transcript.getD ""

/-- Python `str.lower()` (ASCII case folding). -/
def pyLower (s : String) : String := String.mk (s.data.map Char.toLower)

/-- Worker for `pyWords`: split a character list on whitespace runs, dropping empty
fragments, accumulating the current word reversed. -/
def splitWSAux : List Char → List Char → List String
  | [], cur => if cur.isEmpty then [] else [String.mk cur.reverse]
  | c :: rest, cur =>
    if c.isWhitespace then
      if cur.isEmpty then splitWSAux rest []
      else String.mk cur.reverse :: splitWSAux rest []
    else splitWSAux rest (c :: cur)

/-- Python `str.split()` with no separator: split on whitespace runs, no empty
fragments (hence a preceding `.strip()` is a no-op). -/
def pyWords (s : String) : List String := splitWSAux s.data []

/-- Python `' '.join(words)`. -/
def joinSpace : List String → String
  | [] => ""
  | [w] => w
  | w :: ws => w ++ " " ++ joinSpace ws

/-- Normalization inside `ContentItem.generate_content_hash`:
`f"{title}|{content}".lower().strip()` then whitespace-collapse via
`' '.join(text.split())`. -/
def normalizeText (title content : String) : String :=
  joinSpace (pyWords (pyLower (title ++ "|" ++ content)))

/-- `len(self.content.split())`. -/
def wordCountOf (content : String) : Nat :=
  (pyWords content).length

/-- A persisted `ContentItem` row (the RawItem of the spec). -/
structure ContentItem where
  ident : Nat
  sourceId : Nat
  externalId : String
  contentHash : Option String
  title : String
  content : String
  processed : Bool
  wordCount : Option Nat
  publishedAt : Int
deriving Repr, DecidableEq

/-- `ContentItem.calculate_word_count`: sets `word_count` only when content is truthy. -/
def calcWordCount (r : ContentItem) : ContentItem :=
  if r.content ≠ "" then { r with wordCount := some (wordCountOf r.content) } else r

/-- `ContentItem.generate_content_hash`, with the SHA-256 hexdigest abstracted as
`hash` applied to the normalized text. -/
def genContentHash (hash : String → String) (r : ContentItem) : String :=
  hash (normalizeText r.title r.content)

/-- A fresh primary key: strictly greater than every id already in the store. -/
def freshId (s : List ContentItem) : Nat :=
  s.foldr (fun r m => max m (r.ident + 1)) 0

/-- The content a brand-new item would be stored with, or `none` if rejected:
body/transcript if truthy, else the description subject to the per-source-type
minimum length (10 for YouTube, 50 otherwise).  Mirrors the new-item content
extraction in `_save_content_item`. -/
def effectiveContent (isYoutube : Bool) (d : RawData) : Option String :=
  let c0 := rawContent d
  if c0 = "" then
    let c1 := d.description.getD ""
    let minLength := if isYoutube then 10 else 50
    if c1 = "" ∨ c1.length < minLength then none else some c1
  else
    some c0

/-- The in-place upgrade of an existing thin record: replace the body, recompute
word count (`calculate_word_count`) and content hash (`generate_content_hash`). -/
def upgradeItem (hash : String → String) (newContent : String) (x : ContentItem) :
    ContentItem :=
  let x0 := calcWordCount { x with content := newContent }
  { x0 with contentHash := some (genContentHash hash x0) }

/-- The fully initialized new `ContentItem` built by `_save_content_item` before the
content-hash duplicate check (word count and content hash already computed). -/
def newItem (hash : String → String) (sourceId : Nat) (d : RawData) (eid c : String)
    (s : List ContentItem) : ContentItem :=
  let item0 : ContentItem := {
    ident := freshId s, sourceId := sourceId, externalId := eid,
    contentHash := none, title := d.title, content := c,
    processed := false, wordCount := none, publishedAt := d.publishedAt }
  let item1 := calcWordCount item0
  { item1 with contentHash := some (genContentHash hash item1) }

/-- `ContentFetcherAgent._save_content_item`.

Returns `(saved?, store')`.  Follows the source in order:
1. reject when no truthy external id;
2. look up by external id; if found, either upgrade a thin record (rolling back to
   the untouched store when the recomputed hash collides with a different row —
   the unique constraint on `content_hash`) or report a duplicate;
3. otherwise extract content with the per-source-type threshold, reject if absent;
4. reject as duplicate when the content hash already exists;
5. append the new row. -/
def saveContentItem (hash : String → String) (isYoutube : Bool) (sourceId : Nat)
    (d : RawData) (s : List ContentItem) : Bool × List ContentItem :=
  match externalIdOf d with
  | none => (false, s)
  | some eid =>
    match s.find? (fun r => r.externalId = eid) with
    | some existing =>
      let newContent := rawContent d
      if (existing.content = "" ∨ existing.content.length < 50)
          ∧ newContent ≠ "" ∧ 50 ≤ newContent.length then
        let upgraded := upgradeItem hash newContent existing
        if s.any (fun r => r.ident ≠ existing.ident ∧ r.contentHash = upgraded.contentHash)
        then
          (false, s)
        else
          (true, s.map (fun r => if r.ident = existing.ident then upgraded else r))
      else
        (false, s)
    | none =>
      match effectiveContent isYoutube d with
      | none => (false, s)
      | some c =>
        let item := newItem hash sourceId d eid c s
        if s.any (fun r => r.contentHash = item.contentHash) then
          (false, s)
        else
          (true, s ++ [item])

/-- Per-source run statistics (`{"fetched": _, "saved": _, "duplicates": _}`). -/
structure SourceStats where
  fetched : Nat
  saved : Nat
  duplicates : Nat
deriving Repr, DecidableEq

/-- The per-article loop body of `_fetch_from_rss` (identically `_fetch_from_youtube`
modulo the service-side cutoff): skip items older than the cutoff, otherwise try to
save and count the result as `saved` or `duplicates`. -/
def fetchLoopStep (hash : String → String) (isYoutube : Bool) (sourceId : Nat)
    (cutoff : Int) (acc : SourceStats × List ContentItem) (d : RawData) :
    SourceStats × List ContentItem :=
  if d.publishedAt < cutoff then acc
  else
    let res := saveContentItem hash isYoutube sourceId d acc.2
    if res.1 then
      ({ acc.1 with saved := acc.1.saved + 1 }, res.2)
    else
      ({ acc.1 with duplicates := acc.1.duplicates + 1 }, res.2)

/-- A persisted `Article` row (the ProcessedRecord of the spec). -/
structure Article where
  ident : Nat
  contentItemId : Nat
  title : String
  summary : String
  qualityScore : Option Int
  relevanceTags : List String
  topicCluster : Option String
  includedInDigest : Bool
  digestDate : Option Int
  publishedAt : Int
deriving Repr, DecidableEq

/-- The database state the processing and digest stages act on. -/
structure DB where
  items : List ContentItem
  articles : List Article
deriving Repr, DecidableEq

/-- The Gemini summarizer collaborator (`app/services/gemini_service.py`), as an
external parameter: the pipeline only consumes its return values. -/
structure Gemini where
  summarize : String → Option String
  rateQuality : String → Int
  extractTopic : String → String → Option String
  extractTags : String → List String

/-- Set `processed = True` on the content item with the given id (the in-session
mutation plus `db.session.commit()`). -/
def markItemProcessed (itemId : Nat) (s : DB) : DB :=
  { s with items := s.items.map (fun r =>
      if r.ident = itemId then { r with processed := true } else r) }

/-- A fresh `Article` primary key. -/
def freshArticleId (arts : List Article) : Nat :=
  arts.foldr (fun a m => max m (a.ident + 1)) 0

/-- The `Article` record built by `_process_item` from a content item and the
collaborator's outputs. -/
def mkArticle (g : Gemini) (summary : String) (item : ContentItem)
    (arts : List Article) : Article :=
  { ident := freshArticleId arts, contentItemId := item.ident,
    title := item.title, summary := summary,
    qualityScore := some (g.rateQuality item.content),
    relevanceTags := g.extractTags item.content,
    topicCluster := g.extractTopic item.title summary,
    includedInDigest := false, digestDate := none,
    publishedAt := item.publishedAt }

/-- `ContentProcessorAgent._process_item` on the item with id `itemId`.

`persistOk` models whether the final `db.session.add(article); db.session.commit()`
succeeds; on failure the session is rolled back, which also reverts the in-session
`item.processed = True` mutation, so the state is exactly as before.  Returns
`(processed-successfully?, state')`.  An id not present in the store cannot occur in
the source (the caller holds the ORM object) and is a no-op here. -/
def processItem (g : Gemini) (persistOk : Bool) (itemId : Nat) (s : DB) :
    Bool × DB :=
  match s.items.find? (fun r => r.ident = itemId) with
  | none => (false, s)
  | some item =>
    if s.articles.any (fun a => a.contentItemId = item.ident) then
      (false, markItemProcessed item.ident s)
    else if item.content = "" ∨ item.content.length < 100 then
      (false, markItemProcessed item.ident s)
    else
      match truthy (g.summarize item.content) with
      | none => (false, s)
      | some summary =>
        let article := mkArticle g summary item s.articles
        if persistOk then
          (true, { items := (markItemProcessed item.ident s).items,
                   articles := s.articles ++ [article] })
        else
          (false, s)

/-- `ContentProcessorAgent.process_all`: snapshot up to `limit` unprocessed item ids,
then run `_process_item` on each in order.  `persistOk` gives the persistence outcome
per item id; the run statistics are not modelled (no claim depends on them). -/
def processAll (g : Gemini) (persistOk : Nat → Bool) (limit : Nat) (s : DB) : DB :=
  let ids := ((s.items.filter (fun r => !r.processed)).take limit).map (fun r => r.ident)
  ids.foldl (fun st i => (processItem g (persistOk i) i st).2) s

/-- The SQL filter `Article.quality_score >= min_quality`: a NULL score never
satisfies a comparison. -/
def qualAtLeast (minQuality : Int) (a : Article) : Bool :=
  match a.qualityScore with
  | some q => minQuality ≤ q
  | none => false

/-- The `ORDER BY quality_score DESC, published_at DESC` ranking: `rankBefore a b`
when `a` sorts no later than `b`.  Candidate rows always carry a non-NULL score
(the filter above), so the `getD 0` default is never the deciding value there. -/
def rankBefore (a b : Article) : Bool :=
  b.qualityScore.getD 0 < a.qualityScore.getD 0 ∨
    (a.qualityScore.getD 0 = b.qualityScore.getD 0 ∧ b.publishedAt ≤ a.publishedAt)

/-- Insertion step of the ranking sort. -/
def insertRanked (a : Article) : List Article → List Article
  | [] => [a]
  | b :: bs => if rankBefore a b then a :: b :: bs else b :: insertRanked a bs

/-- The ranking sort standing in for the SQL `ORDER BY` (any order consistent with
the ranking; the claims only rely on it being a permutation of the candidates). -/
def sortRanked : List Article → List Article
  | [] => []
  | a :: as => insertRanked a (sortRanked as)

/-- The digest candidate set: `included_in_digest == False AND quality_score >= min`. -/
def digestCandidates (minQuality : Int) (s : DB) : List Article :=
  s.articles.filter (fun a => !a.includedInDigest && qualAtLeast minQuality a)

/-- `DigestGeneratorAgent._get_articles_for_digest`: filter, order, limit. -/
def getArticlesForDigest (maxArticles : Nat) (minQuality : Int) (s : DB) :
    List Article :=
  (sortRanked (digestCandidates minQuality s)).take maxArticles

/-- `DigestGeneratorAgent._generate_html`, abstracted: the claims never inspect the
rendered HTML, only whether a digest exists, so the template body is collapsed to a
count-bearing string. -/
def renderDigest (articles : List Article) (digestDate : Int) : String :=
  "digest " ++ toString digestDate ++ " with " ++ toString articles.length ++ " articles"

/-- `DigestGeneratorAgent._mark_articles_included`: set `included_in_digest = True`
and `digest_date` on exactly the selected articles, one commit. -/
def markArticlesIncluded (selectedIds : List Nat) (digestDate : Int) (s : DB) : DB :=
  { s with articles := s.articles.map (fun a =>
      if a.ident ∈ selectedIds then
        { a with includedInDigest := true, digestDate := some digestDate }
      else a) }

/-- `DigestGeneratorAgent.generate_digest`: select, render, mark.  Returns the HTML
(`none` when no articles are available) together with the new state. -/
def generateDigest (maxArticles : Nat) (minQuality : Int) (digestDate : Int)
    (s : DB) : Option String × DB :=
  let articles := getArticlesForDigest maxArticles minQuality s
  if articles = [] then (none, s)
  else
    let html := renderDigest articles digestDate
    (some html, markArticlesIncluded (articles.map (fun a => a.ident)) digestDate s)

/-- `DigestGeneratorAgent.preview_digest`: same selection and rendering, but no
marking — the function body performs no session mutation, so the state passes
through unchanged. -/
def previewDigest (maxArticles : Nat) (minQuality : Int) (today : Int) (s : DB) :
    Option String × DB :=
  let articles := getArticlesForDigest maxArticles minQuality s
  if articles = [] then (none, s)
  else (some (renderDigest articles today), s)

/-- Fetch-stage totals as consumed by the orchestrator. -/
structure FetchTotals where
  totalFetched : Nat
  totalSaved : Nat
  duplicates : Nat
deriving Repr, DecidableEq

/-- Processing-stage totals as consumed by the orchestrator. -/
structure ProcessTotals where
  processed : Nat
  failed : Nat
  skipped : Nat
deriving Repr, DecidableEq

/-- `jobs/daily_digest.py::main`, with the stage outcomes as parameters (the stages
are external collaborators of the orchestrator): subscriber check, fetch, process,
availability check, digest generation, then one send per subscriber, returning the
exit code exactly as the source does. -/
def dailyDigestMain (activeSubscribers : List String) (fetch : FetchTotals)
    (proc : ProcessTotals) (availableForDigest : Nat) (digestHtml : Option String)
    (sendOk : String → Bool) : Int :=
  if activeSubscribers = [] then 0
  else if fetch.totalSaved = 0 then 0
  else if proc.processed = 0 then 1
  else if availableForDigest = 0 then 0
  else
    match truthy digestHtml with
    | none => 1
    | some _ =>
      let sent := (activeSubscribers.filter sendOk).length
      if 0 < sent then 0 else 1

/-- The invariant of the `articles.content_item_id` unique constraint: at most one
`Article` per `ContentItem`. -/
def atMostOneArticlePerItem (arts : List Article) : Prop :=
  ∀ n : Nat, (arts.filter (fun a => a.contentItemId = n)).length ≤ 1

/- Concrete data used to instantiate the theorems below on closed inputs.  The
identity function stands in for the SHA-256 hexdigest: the pipeline only relies on
the hash being a deterministic function of the normalized text. -/

/-- A body comfortably above the 50-character threshold. -/
def wBody : String := "This body is certainly longer than fifty characters in total length."

/-- A feed item with a usable external id and a long body. -/
def wFeedA : RawData :=
  { ident := some "item-a", link := none, title := "Title A", content := some wBody,
    transcript := none, description := none, publishedAt := 5 }

/-- Same title and body as `wFeedA` under a different external id. -/
def wFeedB : RawData :=
  { ident := some "item-b", link := none, title := "Title A", content := some wBody,
    transcript := none, description := none, publishedAt := 5 }

/-- A feed item with a 15-character body and no description. -/
def wFeedShort : RawData :=
  { ident := some "item-short", link := none, title := "Short",
    content := some "123456789012345", transcript := none, description := none,
    publishedAt := 0 }

/-- A video item with no transcript and a 15-character description. -/
def wVideo : RawData :=
  { ident := some "vid-1", link := none, title := "Video", content := none,
    transcript := none, description := some "123456789012345", publishedAt := 0 }

/-- A feed item with no body at all and no description. -/
def wFeedEmpty : RawData :=
  { ident := some "feed-e", link := none, title := "Empty", content := none,
    transcript := none, description := none, publishedAt := 0 }

/-- A stored thin record (4 characters of body) for the upgrade scenario. -/
def wThin : ContentItem :=
  { ident := 7, sourceId := 1, externalId := "item-a", contentHash := some "oldhash",
    title := "Title A", content := "tiny", processed := false, wordCount := some 1,
    publishedAt := 3 }

/-- An unrelated record whose hash equals the one `wFeedA`'s upgrade would produce
(under the identity hash), to exercise the collision rollback. -/
def wCollider : ContentItem :=
  { ident := 8, sourceId := 2, externalId := "other",
    contentHash := some (normalizeText "Title A" wBody), title := "Other",
    content := "other content", processed := true, wordCount := some 2,
    publishedAt := 3 }

/-- An item missing both id and link (rejected with no usable external id). -/
def wNoId : RawData :=
  { ident := none, link := some "", title := "Anon", content := some wBody,
    transcript := none, description := none, publishedAt := 9 }

/-- A deterministic summarizer collaborator for closed instances. -/
def wGemini : Gemini :=
  { summarize := fun _ => some "a summary", rateQuality := fun _ => 8,
    extractTopic := fun _ _ => some "llm", extractTags := fun _ => ["ai"] }

/-- A content item long enough (120 characters) to be summarized. -/
def wItem : ContentItem :=
  { ident := 1, sourceId := 1, externalId := "item-a", contentHash := some "h1",
    title := "Title A", content := String.mk (List.replicate 120 'a'),
    processed := false, wordCount := some 1, publishedAt := 5 }

/-- An article already derived from `wItem`. -/
def wArticle : Article :=
  { ident := 4, contentItemId := 1, title := "Title A", summary := "sum",
    qualityScore := some 8, relevanceTags := [], topicCluster := none,
    includedInDigest := false, digestDate := none, publishedAt := 5 }

/-- A state where `wItem` already has its article. -/
def wDBProcessed : DB := { items := [wItem], articles := [wArticle] }

/-- A state where `wItem` has no article yet. -/
def wDBFresh : DB := { items := [wItem], articles := [] }

/-- A digest-ready state: one quality-8 article not yet included. -/
def wDBDigest : DB := { items := [], articles := [wArticle] }

/-! ## Helper lemmas -/

/-- Whenever `_save_content_item` reports `False`, the store is unchanged (every
rejection path either returns before any write or rolls the session back). -/
theorem saveContentItem_snd_of_false (hash : String → String) (isYoutube : Bool)
    (sourceId : Nat) (d : RawData) (s : List ContentItem)
    (h : (saveContentItem hash isYoutube sourceId d s).1 = false) :
    (saveContentItem hash isYoutube sourceId d s).2 = s := by
  revert h
  unfold saveContentItem
  dsimp only
  split
  · simp
  · split
    · split
      · split
        · simp
        · simp
      · simp
    · split
      · simp
      · split
        · simp
        · simp

/-- The fetch loop counts every in-cutoff item whose save reported `False` as one
more duplicate, leaving the store as it was. -/
theorem fetchLoopStep_of_save_false (hash : String → String) (isYoutube : Bool)
    (sourceId : Nat) (cutoff : Int) (stats : SourceStats) (store : List ContentItem)
    (d : RawData) (hcut : ¬ d.publishedAt < cutoff)
    (hfail : (saveContentItem hash isYoutube sourceId d store).1 = false) :
    fetchLoopStep hash isYoutube sourceId cutoff (stats, store) d =
      ({ stats with duplicates := stats.duplicates + 1 }, store) := by
  unfold fetchLoopStep
  dsimp only
  rw [if_neg hcut, hfail]
  simp [saveContentItem_snd_of_false hash isYoutube sourceId d store hfail]

/-- Field values of a freshly built `ContentItem`. -/
theorem newItem_spec (hash : String → String) (sourceId : Nat) (d : RawData)
    (eid c : String) (s : List ContentItem) :
    (newItem hash sourceId d eid c s).externalId = eid
    ∧ (newItem hash sourceId d eid c s).content = c
    ∧ (newItem hash sourceId d eid c s).contentHash =
        some (hash (normalizeText d.title c)) := by
  unfold newItem calcWordCount genContentHash
  dsimp only
  split <;> simp

/-- Field values of an upgraded `ContentItem` (for a nonempty replacement body). -/
theorem upgradeItem_spec (hash : String → String) (nc : String) (x : ContentItem)
    (hnc : nc ≠ "") :
    (upgradeItem hash nc x).processed = x.processed
    ∧ (upgradeItem hash nc x).content = nc
    ∧ (upgradeItem hash nc x).wordCount = some (wordCountOf nc)
    ∧ (upgradeItem hash nc x).contentHash =
        some (hash (normalizeText x.title nc))
    ∧ (upgradeItem hash nc x).ident = x.ident := by
  unfold upgradeItem calcWordCount genContentHash
  simp [hnc]

/-- A successful save of an item whose external id is not yet stored appends
exactly the freshly built row: there is an accepted content `c` whose hash is not
yet present. -/
theorem saveContentItem_new (hash : String → String) (isYoutube : Bool)
    (sourceId : Nat) (d : RawData) (s : List ContentItem) (e : String)
    (hid : externalIdOf d = some e)
    (hfind : s.find? (fun r => r.externalId = e) = none)
    (hsave : (saveContentItem hash isYoutube sourceId d s).1 = true) :
    ∃ c, effectiveContent isYoutube d = some c ∧
      (s.any (fun r =>
        r.contentHash = (newItem hash sourceId d e c s).contentHash)) = false ∧
      saveContentItem hash isYoutube sourceId d s =
        (true, s ++ [newItem hash sourceId d e c s]) := by
  revert hsave
  simp only [saveContentItem, hid, hfind]
  cases heff : effectiveContent isYoutube d with
  | none => simp
  | some c =>
    dsimp only
    split
    · simp
    · next hany =>
      intro _
      exact ⟨c, rfl, by simpa using hany, rfl⟩

/-! ## C10 — fetch statistics conflate rejection reasons -/

/-- C10: for every fetched item within the recency cutoff, whenever
`_save_content_item` returns `False` — for any reason whatsoever (external-id
duplicate, content-hash duplicate, missing external id, content below threshold,
persistence error) — the run statistics increment `duplicates` by exactly one and
nothing else, so rejected and failed items are indistinguishable from genuine
duplicates in the returned statistics. -/
theorem fetch_stats_conflate_rejections (hash : String → String) (isYoutube : Bool)
    (sourceId : Nat) (cutoff : Int) (stats : SourceStats) (store : List ContentItem)
    (d : RawData) (hcut : ¬ d.publishedAt < cutoff)
    (hfail : (saveContentItem hash isYoutube sourceId d store).1 = false) :
    fetchLoopStep hash isYoutube sourceId cutoff (stats, store) d =
      ({ stats with duplicates := stats.duplicates + 1 }, store) :=
  fetchLoopStep_of_save_false hash isYoutube sourceId cutoff stats store d hcut hfail

/-- Witness for C10 at a concrete input: an item with no usable external id is
counted as a duplicate. -/
theorem fetch_stats_conflate_rejections_witness :
    fetchLoopStep (fun t => t) false 3 0 (⟨5, 2, 3⟩, []) wNoId =
      ({ fetched := 5, saved := 2, duplicates := 3 + 1 }, []) :=
  fetch_stats_conflate_rejections (fun t => t) false 3 0 ⟨5, 2, 3⟩ [] wNoId
    (by decide) (by decide)

/-! ## C4 — per-source-type minimum-content policy -/

/-- C4 counterexample: a new feed item with a nonempty 15-character body and no
fallback description is persisted (`_save_content_item` returns `True` and the
store grows), contradicting the claim that it is rejected — the minimum-length
check only runs when the body/transcript is empty. -/
theorem feed_short_body_is_saved :
    (saveContentItem (fun t => t) false 1 wFeedShort []).1 = true
    ∧ (saveContentItem (fun t => t) false 1 wFeedShort []).2.length = 1 := by decide

/-- C4 amended: for a new item, a video-source item with no body/transcript and a
description of at least 10 characters is persisted, while a feed-source item with
an *empty* body whose fallback description is missing or shorter than 50 characters
is rejected and not persisted.  (A feed item with a nonempty body is accepted
regardless of body length — the thresholds apply only to the description
fallback.) -/
theorem per_source_threshold_policy (hash : String → String) (sourceId : Nat)
    (dv df : RawData) (s : List ContentItem) (ev ef cv : String)
    (hidv : externalIdOf dv = some ev) (hfreshv : ∀ r ∈ s, r.externalId ≠ ev)
    (hnbv : rawContent dv = "") (hdv : dv.description = some cv)
    (hcv : cv ≠ "") (hcvlen : 10 ≤ cv.length)
    (hnohash : (s.any (fun r =>
        r.contentHash = (newItem hash sourceId dv ev cv s).contentHash)) = false)
    (hidf : externalIdOf df = some ef) (hfreshf : ∀ r ∈ s, r.externalId ≠ ef)
    (hnbf : rawContent df = "")
    (hdf : df.description.getD "" = "" ∨ (df.description.getD "").length < 50) :
    saveContentItem hash true sourceId dv s =
      (true, s ++ [newItem hash sourceId dv ev cv s])
    ∧ saveContentItem hash false sourceId df s = (false, s) := by
  constructor
  · have hfind : s.find? (fun r => r.externalId = ev) = none := by
      rw [List.find?_eq_none]
      intro r hr
      simpa using hfreshv r hr
    have hlt : ¬ cv.length < 10 := by omega
    have heff : effectiveContent true dv = some cv := by
      unfold effectiveContent
      simp [hnbv, hdv, hcv, hlt]
    simp only [saveContentItem, hidv, hfind, heff, hnohash]
    simp
  · have hfind : s.find? (fun r => r.externalId = ef) = none := by
      rw [List.find?_eq_none]
      intro r hr
      simpa using hfreshf r hr
    have heff : effectiveContent false df = none := by
      unfold effectiveContent
      simp only [hnbf]
      simp [hdf]
    simp only [saveContentItem, hidf, hfind, heff]

/-- Witness for the amended C4 at concrete inputs: the 15-character-description
video is saved; the empty-body feed item is rejected. -/
theorem per_source_threshold_policy_witness :
    saveContentItem (fun t => t) true 1 wVideo [] =
      (true, [] ++ [newItem (fun t => t) 1 wVideo "vid-1" "123456789012345" []])
    ∧ saveContentItem (fun t => t) false 1 wFeedEmpty [] = (false, []) :=
  per_source_threshold_policy (fun t => t) 1 wVideo wFeedEmpty [] "vid-1" "feed-e"
    "123456789012345" (by decide) (by decide) (by decide) (by decide) (by decide)
    (by decide) (by decide) (by decide) (by decide) (by decide) (by decide)

/-! ## C9 — pipeline exit status -/

/-- C9 counterexample: with zero active recipients the pipeline run exits with
code 0, contradicting the claim that every stop case exits non-zero (the source
returns 0 for the no-recipients, nothing-new-saved and nothing-available stops). -/
theorem pipeline_no_recipients_exits_zero :
    dailyDigestMain [] ⟨0, 0, 0⟩ ⟨0, 0, 0⟩ 0 none (fun _ => false) = 0 := by
  decide

/-- C9 amended: one full pipeline run exits 0 exactly when it stopped benignly (no
active recipients, nothing new saved, or nothing available for a digest) or the
digest was sent to at least one recipient; it exits non-zero (1) exactly when
nothing was processed, digest generation failed, or every send failed. -/
theorem pipeline_exit_code_characterization (subs : List String)
    (fetch : FetchTotals) (proc : ProcessTotals) (avail : Nat)
    (html : Option String) (sendOk : String → Bool) :
    dailyDigestMain subs fetch proc avail html sendOk = 0 ↔
      (subs = [] ∨
       (subs ≠ [] ∧ fetch.totalSaved = 0) ∨
       (subs ≠ [] ∧ fetch.totalSaved ≠ 0 ∧ proc.processed ≠ 0 ∧ avail = 0) ∨
       (subs ≠ [] ∧ fetch.totalSaved ≠ 0 ∧ proc.processed ≠ 0 ∧ avail ≠ 0 ∧
        truthy html ≠ none ∧ 0 < (subs.filter sendOk).length)) := by
  unfold dailyDigestMain
  by_cases h1 : subs = [] <;> by_cases h2 : fetch.totalSaved = 0 <;>
    by_cases h3 : proc.processed = 0 <;> by_cases h4 : avail = 0 <;>
      cases h5 : truthy html <;>
        by_cases h6 : 0 < (subs.filter sendOk).length <;>
          simp [h1, h2, h3, h4, h5, h6]

/-! ## C1 — idempotent ingestion on the primary fingerprint -/

/-- C1: for a raw item with a usable (non-empty) external id not yet stored,
whose first save succeeds, exactly one `ContentItem` with that external id is
persisted; submitting the identical item again persists nothing (the store is
returned unchanged), the save reports `False`, and the fetch loop counts the
second attempt under `duplicates`. -/
theorem ingestion_idempotent (hash : String → String) (isYoutube : Bool)
    (sourceId : Nat) (d : RawData) (s : List ContentItem) (e : String)
    (hid : externalIdOf d = some e)
    (hfresh : ∀ r ∈ s, r.externalId ≠ e)
    (hsave : (saveContentItem hash isYoutube sourceId d s).1 = true) :
    (((saveContentItem hash isYoutube sourceId d s).2.filter
        (fun r => r.externalId = e)).length = 1)
    ∧ saveContentItem hash isYoutube sourceId d
        ((saveContentItem hash isYoutube sourceId d s).2)
        = (false, (saveContentItem hash isYoutube sourceId d s).2)
    ∧ ∀ (stats : SourceStats) (cutoff : Int), ¬ d.publishedAt < cutoff →
        fetchLoopStep hash isYoutube sourceId cutoff
          (stats, (saveContentItem hash isYoutube sourceId d s).2) d =
          ({ stats with duplicates := stats.duplicates + 1 },
           (saveContentItem hash isYoutube sourceId d s).2) := by
  have hfind : s.find? (fun r => r.externalId = e) = none := by
    rw [List.find?_eq_none]
    intro r hr
    simpa using hfresh r hr
  obtain ⟨c, heff, hany, heq⟩ :=
    saveContentItem_new hash isYoutube sourceId d s e hid hfind hsave
  obtain ⟨hext, hcont, hhash⟩ := newItem_spec hash sourceId d e c s
  have h2 : (saveContentItem hash isYoutube sourceId d s).2 =
      s ++ [newItem hash sourceId d e c s] := by rw [heq]
  have hdup : saveContentItem hash isYoutube sourceId d
      ((saveContentItem hash isYoutube sourceId d s).2)
      = (false, (saveContentItem hash isYoutube sourceId d s).2) := by
    rw [h2]
    have hfind2 : (s ++ [newItem hash sourceId d e c s]).find?
        (fun r => r.externalId = e) = some (newItem hash sourceId d e c s) := by
      rw [List.find?_append, hfind]
      simp [hext]
    have hnot : ¬ (((newItem hash sourceId d e c s).content = ""
          ∨ (newItem hash sourceId d e c s).content.length < 50)
        ∧ rawContent d ≠ "" ∧ 50 ≤ (rawContent d).length) := by
      rintro ⟨h1, hne, hlen⟩
      have hc : c = rawContent d := by
        unfold effectiveContent at heff
        dsimp only at heff
        rw [if_neg hne] at heff
        exact (Option.some.inj heff).symm
      rw [hcont, hc] at h1
      rcases h1 with h1 | h1
      · exact hne h1
      · omega
    simp only [saveContentItem, hid, hfind2]
    split
    · next hcond => exact absurd hcond hnot
    · rfl
  refine ⟨?_, hdup, ?_⟩
  · rw [h2, List.filter_append]
    have hnil : s.filter (fun r => r.externalId = e) = [] := by
      rw [List.filter_eq_nil_iff]
      intro r hr
      simpa using hfresh r hr
    rw [hnil]
    simp [hext]
  · intro stats cutoff hcut
    exact fetchLoopStep_of_save_false hash isYoutube sourceId cutoff stats _ d hcut
      (by rw [hdup])

/-- Witness for C1 at a concrete input: `wFeedA` saved into an empty store, then
submitted again. -/
theorem ingestion_idempotent_witness :
    (((saveContentItem (fun t => t) false 1 wFeedA []).2.filter
        (fun r => r.externalId = "item-a")).length = 1)
    ∧ saveContentItem (fun t => t) false 1 wFeedA
        ((saveContentItem (fun t => t) false 1 wFeedA []).2)
        = (false, (saveContentItem (fun t => t) false 1 wFeedA []).2)
    ∧ ∀ (stats : SourceStats) (cutoff : Int), ¬ wFeedA.publishedAt < cutoff →
        fetchLoopStep (fun t => t) false 1 cutoff
          (stats, (saveContentItem (fun t => t) false 1 wFeedA []).2) wFeedA =
          ({ stats with duplicates := stats.duplicates + 1 },
           (saveContentItem (fun t => t) false 1 wFeedA []).2) :=
  ingestion_idempotent (fun t => t) false 1 wFeedA [] "item-a"
    (by decide) (by decide) (by decide)

/-! ## C2 — secondary-fingerprint (content hash) dedup -/

/-- C2: two raw items with different usable external ids, both fresh for the
store, whose accepted contents normalize to the same `title|body` text: after the
first is saved (store grows by exactly one row), ingesting the second is discarded
as a duplicate — its computed content hash already belongs to the first row — and
the store is unchanged. -/
theorem hash_catch_dedup (hash : String → String) (isYt1 isYt2 : Bool)
    (sid1 sid2 : Nat) (d1 d2 : RawData) (s : List ContentItem) (e1 e2 c1 c2 : String)
    (hid1 : externalIdOf d1 = some e1) (hid2 : externalIdOf d2 = some e2)
    (hne : e1 ≠ e2)
    (hfresh1 : ∀ r ∈ s, r.externalId ≠ e1)
    (hfresh2 : ∀ r ∈ s, r.externalId ≠ e2)
    (heff1 : effectiveContent isYt1 d1 = some c1)
    (heff2 : effectiveContent isYt2 d2 = some c2)
    (hnorm : normalizeText d1.title c1 = normalizeText d2.title c2)
    (hsave1 : (saveContentItem hash isYt1 sid1 d1 s).1 = true) :
    (saveContentItem hash isYt1 sid1 d1 s).2.length = s.length + 1
    ∧ saveContentItem hash isYt2 sid2 d2 ((saveContentItem hash isYt1 sid1 d1 s).2)
        = (false, (saveContentItem hash isYt1 sid1 d1 s).2) := by
  have hfind1 : s.find? (fun r => r.externalId = e1) = none := by
    rw [List.find?_eq_none]
    intro r hr
    simpa using hfresh1 r hr
  have hfind2 : s.find? (fun r => r.externalId = e2) = none := by
    rw [List.find?_eq_none]
    intro r hr
    simpa using hfresh2 r hr
  obtain ⟨c, heffc, hany, heq⟩ :=
    saveContentItem_new hash isYt1 sid1 d1 s e1 hid1 hfind1 hsave1
  have hcc : c = c1 := by
    rw [heffc] at heff1
    exact Option.some.inj heff1
  subst hcc
  obtain ⟨hext1, hcont1, hhash1⟩ := newItem_spec hash sid1 d1 e1 c s
  have h2 : (saveContentItem hash isYt1 sid1 d1 s).2 =
      s ++ [newItem hash sid1 d1 e1 c s] := by rw [heq]
  refine ⟨by rw [h2]; simp, ?_⟩
  rw [h2]
  have hfind2' : (s ++ [newItem hash sid1 d1 e1 c s]).find?
      (fun r => r.externalId = e2) = none := by
    rw [List.find?_append, hfind2]
    simp [hext1, hne]
  obtain ⟨hext2, hcont2, hhash2⟩ :=
    newItem_spec hash sid2 d2 e2 c2 (s ++ [newItem hash sid1 d1 e1 c s])
  have hany2 : ((s ++ [newItem hash sid1 d1 e1 c s]).any (fun r =>
      r.contentHash = (newItem hash sid2 d2 e2 c2
        (s ++ [newItem hash sid1 d1 e1 c s])).contentHash)) = true := by
    rw [List.any_eq_true]
    refine ⟨newItem hash sid1 d1 e1 c s,
      List.mem_append_right s (List.mem_singleton_self _), ?_⟩
    simp [hhash1, hhash2, hnorm]
  simp only [saveContentItem, hid2, hfind2', heff2]
  split
  · rfl
  · next hneg => exact absurd hany2 hneg

/-- Witness for C2 at a concrete input: `wFeedB` repeats `wFeedA`'s title and body
under a different external id and is caught by the hash. -/
theorem hash_catch_dedup_witness :
    (saveContentItem (fun t => t) false 1 wFeedA []).2.length = 1
    ∧ saveContentItem (fun t => t) false 2 wFeedB
        ((saveContentItem (fun t => t) false 1 wFeedA []).2)
        = (false, (saveContentItem (fun t => t) false 1 wFeedA []).2) :=
  hash_catch_dedup (fun t => t) false false 1 2 wFeedA wFeedB [] "item-a" "item-b"
    wBody wBody (by decide) (by decide) (by decide) (by decide) (by decide)
    (by decide) (by decide) rfl (by decide)

/-! ## C3 — upgrade-without-loss -/

/-- C3: re-ingesting a stored item whose body is empty or shorter than 50
characters, under the same external id and with a new body of at least 50
characters, replaces the stored body, recomputes word count and content hash, and
leaves the `processed` flag unchanged; if the recomputed hash collides with a
different existing record, the store is returned exactly as it was and the attempt
reports `False` (duplicate). -/
theorem upgrade_without_loss (hash : String → String) (isYoutube : Bool)
    (sourceId : Nat) (d : RawData) (s : List ContentItem) (e : String)
    (x : ContentItem)
    (hid : externalIdOf d = some e)
    (hfind : s.find? (fun r => r.externalId = e) = some x)
    (hthin : x.content = "" ∨ x.content.length < 50)
    (hne : rawContent d ≠ "") (hlen : 50 ≤ (rawContent d).length) :
    ((s.any (fun r => r.ident ≠ x.ident ∧
        r.contentHash = (upgradeItem hash (rawContent d) x).contentHash)) = false →
      saveContentItem hash isYoutube sourceId d s =
        (true, s.map (fun r =>
          if r.ident = x.ident then upgradeItem hash (rawContent d) x else r))
      ∧ (upgradeItem hash (rawContent d) x).processed = x.processed
      ∧ (upgradeItem hash (rawContent d) x).content = rawContent d
      ∧ (upgradeItem hash (rawContent d) x).wordCount =
          some (wordCountOf (rawContent d))
      ∧ (upgradeItem hash (rawContent d) x).contentHash =
          some (hash (normalizeText x.title (rawContent d))))
    ∧ ((s.any (fun r => r.ident ≠ x.ident ∧
        r.contentHash = (upgradeItem hash (rawContent d) x).contentHash)) = true →
      saveContentItem hash isYoutube sourceId d s = (false, s)) := by
  obtain ⟨hp, hc, hw, hh, hi⟩ := upgradeItem_spec hash (rawContent d) x hne
  have hcond : (x.content = "" ∨ x.content.length < 50)
      ∧ rawContent d ≠ "" ∧ 50 ≤ (rawContent d).length := ⟨hthin, hne, hlen⟩
  constructor
  · intro hany
    refine ⟨?_, hp, hc, hw, hh⟩
    simp only [saveContentItem, hid, hfind]
    rw [if_pos hcond, if_neg (by rw [hany]; exact Bool.false_ne_true)]
  · intro hany
    simp only [saveContentItem, hid, hfind]
    rw [if_pos hcond, if_pos hany]

/-- Witness for C3 at concrete inputs: the thin 4-character record `wThin` is
upgraded by `wFeedA`'s long body; with the colliding record `wCollider` present,
the same attempt leaves the store untouched. -/
theorem upgrade_without_loss_witness :
    (saveContentItem (fun t => t) false 1 wFeedA [wThin] =
        (true, [wThin].map (fun r =>
          if r.ident = wThin.ident then
            upgradeItem (fun t => t) (rawContent wFeedA) wThin
          else r))
      ∧ (upgradeItem (fun t => t) (rawContent wFeedA) wThin).processed =
          wThin.processed
      ∧ (upgradeItem (fun t => t) (rawContent wFeedA) wThin).content =
          rawContent wFeedA
      ∧ (upgradeItem (fun t => t) (rawContent wFeedA) wThin).wordCount =
          some (wordCountOf (rawContent wFeedA))
      ∧ (upgradeItem (fun t => t) (rawContent wFeedA) wThin).contentHash =
          some (normalizeText wThin.title (rawContent wFeedA)))
    ∧ saveContentItem (fun t => t) false 1 wFeedA [wThin, wCollider] =
        (false, [wThin, wCollider]) :=
  ⟨(upgrade_without_loss (fun t => t) false 1 wFeedA [wThin] "item-a" wThin
      (by decide) (by decide) (by decide) (by decide) (by decide)).1 (by decide),
   (upgrade_without_loss (fun t => t) false 1 wFeedA [wThin, wCollider] "item-a"
      wThin (by decide) (by decide) (by decide) (by decide) (by decide)).2
      (by decide)⟩

/-! ## C5 — processing exactly-once -/

/-- One `_process_item` invocation preserves the at-most-one-Article-per-RawItem
invariant: a new `Article` is only appended when the existing-article query came
back empty. -/
theorem processItem_preserves_atMostOne (g : Gemini) (pOk : Bool) (itemId : Nat)
    (s : DB) (hinv : atMostOneArticlePerItem s.articles) :
    atMostOneArticlePerItem (processItem g pOk itemId s).2.articles := by
  unfold processItem
  split
  · exact hinv
  · next item hfind =>
    split
    · exact hinv
    · next hnoart =>
      split
      · exact hinv
      · split
        · exact hinv
        · next summary hsum =>
          split
          · next hok =>
            intro n
            dsimp only
            rw [List.filter_append, List.length_append]
            have hnoart' : (s.articles.any
                (fun a => a.contentItemId = item.ident)) = false := by
              simpa using hnoart
            have hall := List.any_eq_false.mp hnoart'
            have hmk : (mkArticle g summary item s.articles).contentItemId =
                item.ident := rfl
            by_cases hn : n = item.ident
            · subst hn
              have h0 : s.articles.filter
                  (fun a => a.contentItemId = item.ident) = [] := by
                rw [List.filter_eq_nil_iff]
                intro a ha
                simpa using hall a ha
              rw [h0]
              simp [List.filter_cons, hmk]
            · have h1 : ([mkArticle g summary item s.articles].filter
                  (fun a => a.contentItemId = n)) = [] := by
                rw [List.filter_eq_nil_iff]
                intro a ha
                rw [List.mem_singleton] at ha
                subst ha
                simp [hmk]
                exact fun hh => hn hh.symm
              rw [h1]
              simpa using hinv n
          · exact hinv

/-- The `process_all` loop (a fold of `_process_item` over the snapshot of
unprocessed ids) preserves the invariant. -/
theorem foldl_processItem_preserves (g : Gemini) (persistOk : Nat → Bool)
    (ids : List Nat) (s : DB) (hinv : atMostOneArticlePerItem s.articles) :
    atMostOneArticlePerItem
      ((ids.foldl (fun st i => (processItem g (persistOk i) i st).2) s).articles) := by
  induction ids generalizing s with
  | nil => exact hinv
  | cons i is ih =>
    exact ih _ (processItem_preserves_atMostOne g (persistOk i) i s hinv)

/-- C5: an item that already has an `Article` is marked `processed = true` and
skipped — no second Article is created (the article table is returned unchanged) —
and every invocation of `process_all` preserves the at-most-one-Article-per-RawItem
invariant, so repeated runs never create a duplicate Article. -/
theorem processing_exactly_once (g : Gemini) (persistOk : Nat → Bool) (limit : Nat)
    (pOk : Bool) (itemId : Nat) (s : DB) (item : ContentItem)
    (hfind : s.items.find? (fun r => r.ident = itemId) = some item)
    (hhas : (s.articles.any (fun a => a.contentItemId = item.ident)) = true)
    (hinv : atMostOneArticlePerItem s.articles) :
    processItem g pOk itemId s = (false, markItemProcessed item.ident s)
    ∧ (markItemProcessed item.ident s).articles = s.articles
    ∧ atMostOneArticlePerItem (processAll g persistOk limit s).articles := by
  refine ⟨?_, rfl, ?_⟩
  · simp only [processItem, hfind]
    rw [if_pos hhas]
  · unfold processAll
    exact foldl_processItem_preserves g persistOk _ s hinv

/-- Witness for C5 at a concrete input: `wItem` already has `wArticle`. -/
theorem processing_exactly_once_witness :
    processItem wGemini true 1 wDBProcessed = (false, markItemProcessed 1 wDBProcessed)
    ∧ (markItemProcessed 1 wDBProcessed).articles = wDBProcessed.articles
    ∧ atMostOneArticlePerItem
        (processAll wGemini (fun _ => true) 50 wDBProcessed).articles :=
  processing_exactly_once wGemini (fun _ => true) 50 true 1 wDBProcessed wItem
    (by decide) (by decide)
    (fun n => le_trans (List.length_filter_le _ _) (by decide))

/-! ## C6 — processing atomicity on persistence failure -/

/-- C6: on the summarize-and-persist path, if the write of the new `Article`
fails, the transaction is rolled back and the state is exactly as before the
attempt (in particular the item's `processed` flag is still false), so the item is
retried later; when the write succeeds, `processed = true` is committed together
with the new `Article`. -/
theorem processing_atomic_on_failure (g : Gemini) (itemId : Nat) (s : DB)
    (item : ContentItem) (summary : String)
    (hfind : s.items.find? (fun r => r.ident = itemId) = some item)
    (hnoart : (s.articles.any (fun a => a.contentItemId = item.ident)) = false)
    (hlen : 100 ≤ item.content.length)
    (hsum : truthy (g.summarize item.content) = some summary) :
    processItem g false itemId s = (false, s)
    ∧ processItem g true itemId s =
        (true, { items := (markItemProcessed item.ident s).items,
                 articles := s.articles ++ [mkArticle g summary item s.articles] }) := by
  have hne : ¬ (item.content = "" ∨ item.content.length < 100) := by
    rintro (h | h)
    · rw [h] at hlen
      exact absurd hlen (by decide)
    · omega
  have hnoart' : ¬ ((s.articles.any (fun a => a.contentItemId = item.ident)) = true) := by
    simp [hnoart]
  constructor
  · simp only [processItem, hfind, hsum]
    rw [if_neg hnoart', if_neg hne]
    simp
  · simp only [processItem, hfind, hsum]
    rw [if_neg hnoart', if_neg hne]
    simp

/-- Witness for C6 at a concrete input: `wItem` (120 characters, no article yet)
under a failing and a succeeding persist. -/
theorem processing_atomic_on_failure_witness :
    processItem wGemini false 1 wDBFresh = (false, wDBFresh)
    ∧ processItem wGemini true 1 wDBFresh =
        (true, { items := (markItemProcessed 1 wDBFresh).items,
                 articles := wDBFresh.articles ++
                   [mkArticle wGemini "a summary" wItem wDBFresh.articles] }) :=
  processing_atomic_on_failure wGemini 1 wDBFresh wItem "a summary"
    (by decide) (by decide) (by decide) (by decide)

/-! ## C8 — preview frame property -/

/-- `preview_digest` returns the state untouched: its body only queries and
renders. -/
theorem previewDigest_state (mA : Nat) (mQ today : Int) (s : DB) :
    (previewDigest mA mQ today s).2 = s := by
  unfold previewDigest
  dsimp only
  split <;> rfl

/-- C8: preview mode leaves every persisted field unchanged — the state after
`preview_digest` is exactly the state before — so a second consecutive preview
with the same parameters returns the same result and the same candidate set. -/
theorem preview_non_mutation (maxArticles : Nat) (minQuality today : Int) (s : DB) :
    (previewDigest maxArticles minQuality today s).2 = s
    ∧ previewDigest maxArticles minQuality today
        ((previewDigest maxArticles minQuality today s).2) =
        previewDigest maxArticles minQuality today s
    ∧ getArticlesForDigest maxArticles minQuality
        ((previewDigest maxArticles minQuality today s).2) =
        getArticlesForDigest maxArticles minQuality s := by
  have h2 := previewDigest_state maxArticles minQuality today s
  exact ⟨h2, by rw [h2], by rw [h2]⟩

/-! ## C7 — digest exactly-once -/

/-- Inserting into the ranked list is a permutation of consing. -/
theorem insertRanked_perm (a : Article) (l : List Article) :
    (insertRanked a l).Perm (a :: l) := by
  induction l with
  | nil => exact List.Perm.refl _
  | cons b bs ih =>
    unfold insertRanked
    split
    · exact List.Perm.refl _
    · exact (List.Perm.cons b ih).trans (List.Perm.swap a b bs)

/-- The ranking sort permutes its input (the `ORDER BY` changes no rows). -/
theorem sortRanked_perm (l : List Article) : (sortRanked l).Perm l := by
  induction l with
  | nil => exact List.Perm.refl _
  | cons a as ih =>
    unfold sortRanked
    exact (insertRanked_perm a (sortRanked as)).trans (List.Perm.cons a ih)

/-- Every selected article is a stored, not-yet-included article above the
quality threshold. -/
theorem mem_getArticlesForDigest {mA : Nat} {mQ : Int} {s2 : DB} {x : Article}
    (hx : x ∈ getArticlesForDigest mA mQ s2) :
    x ∈ s2.articles ∧ x.includedInDigest = false ∧ qualAtLeast mQ x = true := by
  unfold getArticlesForDigest at hx
  have hx2 : x ∈ sortRanked (digestCandidates mQ s2) := List.mem_of_mem_take hx
  have hx3 : x ∈ digestCandidates mQ s2 := (sortRanked_perm _).mem_iff.mp hx2
  rw [digestCandidates, List.mem_filter] at hx3
  obtain ⟨hmem, hpred⟩ := hx3
  rw [Bool.and_eq_true, Bool.not_eq_true'] at hpred
  exact ⟨hmem, hpred.1, hpred.2⟩

/-- With pairwise-distinct primary keys, equal ids identify equal rows. -/
theorem ident_inj_of_nodup {l : List Article}
    (h : (l.map (fun b => b.ident)).Nodup) {x y : Article}
    (hx : x ∈ l) (hy : y ∈ l) (hxy : x.ident = y.ident) : x = y :=
  List.inj_on_of_nodup_map h hx hy hxy

/-- A fresh primary key is strictly larger than every stored one. -/
theorem lt_freshArticleId {l : List Article} {x : Article} (hx : x ∈ l) :
    x.ident < freshArticleId l := by
  induction l with
  | nil => cases hx
  | cons y ys ih =>
    rcases List.mem_cons.mp hx with h | h
    · subst h
      exact lt_of_lt_of_le (Nat.lt_succ_self _) (le_max_right _ _)
    · exact lt_of_lt_of_le (ih h) (le_max_left _ _)

/-- `generate_digest` never reverts an already-included article: marking only
touches the freshly selected articles, all of which were not yet included. -/
theorem generateDigest_preserves_included (mA : Nat) (mQ dd : Int) (s2 : DB)
    (b : Article) (hnd : (s2.articles.map (fun x => x.ident)).Nodup)
    (hb : b ∈ s2.articles) (hinc : b.includedInDigest = true) :
    ∀ b' ∈ (generateDigest mA mQ dd s2).2.articles, b'.ident = b.ident →
      b'.includedInDigest = true ∧ b'.digestDate = b.digestDate := by
  intro b' hb' hid
  by_cases hnil : getArticlesForDigest mA mQ s2 = []
  · have hsame : (generateDigest mA mQ dd s2).2 = s2 := by
      unfold generateDigest
      dsimp only
      rw [if_pos hnil]
    rw [hsame] at hb'
    have heq := ident_inj_of_nodup hnd hb' hb hid
    subst heq
    exact ⟨hinc, rfl⟩
  · have hgen : (generateDigest mA mQ dd s2).2 =
        markArticlesIncluded ((getArticlesForDigest mA mQ s2).map (fun x => x.ident))
          dd s2 := by
      unfold generateDigest
      dsimp only
      rw [if_neg hnil]
    rw [hgen] at hb'
    unfold markArticlesIncluded at hb'
    dsimp only at hb'
    obtain ⟨c, hc, hcb⟩ := List.mem_map.mp hb'
    have hcid : c.ident = b.ident := by
      rw [← hid, ← hcb]
      by_cases hmem : c.ident ∈ (getArticlesForDigest mA mQ s2).map (fun x => x.ident)
      · simp [hmem]
      · simp [hmem]
    have hcb' : c = b := ident_inj_of_nodup hnd hc hb hcid
    subst hcb'
    have hnotin : c.ident ∉ (getArticlesForDigest mA mQ s2).map (fun x => x.ident) := by
      intro hin
      obtain ⟨sel, hsel, hselid⟩ := List.mem_map.mp hin
      obtain ⟨hselmem, hselninc, _⟩ := mem_getArticlesForDigest hsel
      have hsc : sel = c := ident_inj_of_nodup hnd hselmem hc hselid
      rw [hsc, hinc] at hselninc
      exact absurd hselninc (by decide)
    rw [← hcb, if_neg hnotin]
    exact ⟨hinc, rfl⟩

/-- `_process_item` never reverts an already-included article: it only appends a
fresh-id article (never included) or leaves the article table untouched. -/
theorem processItem_preserves_included (g : Gemini) (pOk : Bool) (i : Nat) (s2 : DB)
    (b : Article) (hnd : (s2.articles.map (fun x => x.ident)).Nodup)
    (hb : b ∈ s2.articles) (hinc : b.includedInDigest = true) :
    ∀ b' ∈ (processItem g pOk i s2).2.articles, b'.ident = b.ident →
      b'.includedInDigest = true ∧ b'.digestDate = b.digestDate := by
  intro b' hb' hid
  have base : b' ∈ s2.articles →
      b'.includedInDigest = true ∧ b'.digestDate = b.digestDate := by
    intro h
    have heq := ident_inj_of_nodup hnd h hb hid
    subst heq
    exact ⟨hinc, rfl⟩
  revert hb'
  unfold processItem
  split
  · exact base
  · next item hfind =>
    split
    · exact base
    · split
      · exact base
      · split
        · exact base
        · next summary hsum =>
          split
          · intro hb'
            rcases List.mem_append.mp hb' with h | h
            · exact base h
            · rw [List.mem_singleton] at h
              subst h
              exfalso
              have hfresh := lt_freshArticleId hb
              have hmkid : (mkArticle g summary item s2.articles).ident =
                  freshArticleId s2.articles := rfl
              rw [hmkid] at hid
              omega
          · exact base

/-- C7: a not-yet-included article at or above the quality threshold, in a
(non-preview) digest run with capacity for all candidates, is selected and ends
with `included_in_digest = true` and `digest_date` set to the run date; it is then
absent from the candidate set of every subsequent selection at any threshold; and
no pipeline operation on articles (`_process_item`, `generate_digest`,
`preview_digest`; ingestion does not touch the article table at all) ever reverts
an included article's `(true, date)` state. -/
theorem digest_exactly_once (maxA : Nat) (minQ dDate : Int) (s : DB)
    (a : Article) (q : Int)
    (hmem : a ∈ s.articles) (hninc : a.includedInDigest = false)
    (hq : a.qualityScore = some q) (hqge : minQ ≤ q)
    (hcap : (digestCandidates minQ s).length ≤ maxA)
    (hnodup : (s.articles.map (fun b => b.ident)).Nodup) :
    (∀ b ∈ (generateDigest maxA minQ dDate s).2.articles, b.ident = a.ident →
        b.includedInDigest = true ∧ b.digestDate = some dDate)
    ∧ (∀ minQ' : Int, a.ident ∉
        ((digestCandidates minQ' (generateDigest maxA minQ dDate s).2).map
          (fun b => b.ident)))
    ∧ (∀ (g : Gemini) (pOk : Bool) (i : Nat) (s2 : DB) (b : Article),
        (s2.articles.map (fun x => x.ident)).Nodup → b ∈ s2.articles →
        b.includedInDigest = true →
        ∀ b' ∈ (processItem g pOk i s2).2.articles, b'.ident = b.ident →
          b'.includedInDigest = true ∧ b'.digestDate = b.digestDate)
    ∧ (∀ (mA : Nat) (mQ dd : Int) (s2 : DB) (b : Article),
        (s2.articles.map (fun x => x.ident)).Nodup → b ∈ s2.articles →
        b.includedInDigest = true →
        ∀ b' ∈ (generateDigest mA mQ dd s2).2.articles, b'.ident = b.ident →
          b'.includedInDigest = true ∧ b'.digestDate = b.digestDate)
    ∧ (∀ (mA : Nat) (mQ today : Int) (s2 : DB),
        (previewDigest mA mQ today s2).2 = s2) := by
  have hcand : a ∈ digestCandidates minQ s := by
    rw [digestCandidates, List.mem_filter]
    refine ⟨hmem, ?_⟩
    rw [Bool.and_eq_true, Bool.not_eq_true']
    refine ⟨hninc, ?_⟩
    rw [qualAtLeast, hq]
    simpa using hqge
  have hlen : (sortRanked (digestCandidates minQ s)).length ≤ maxA := by
    rw [(sortRanked_perm _).length_eq]
    exact hcap
  have hsel : getArticlesForDigest maxA minQ s =
      sortRanked (digestCandidates minQ s) := by
    rw [getArticlesForDigest, List.take_of_length_le hlen]
  have hmemsel : a ∈ getArticlesForDigest maxA minQ s := by
    rw [hsel]
    exact (sortRanked_perm _).mem_iff.mpr hcand
  have hnil : getArticlesForDigest maxA minQ s ≠ [] := List.ne_nil_of_mem hmemsel
  have hgen : (generateDigest maxA minQ dDate s).2 =
      markArticlesIncluded ((getArticlesForDigest maxA minQ s).map (fun x => x.ident))
        dDate s := by
    unfold generateDigest
    dsimp only
    rw [if_neg hnil]
  have haid : a.ident ∈ (getArticlesForDigest maxA minQ s).map (fun x => x.ident) :=
    List.mem_map.mpr ⟨a, hmemsel, rfl⟩
  have hmain : ∀ b ∈ (generateDigest maxA minQ dDate s).2.articles, b.ident = a.ident →
      b.includedInDigest = true ∧ b.digestDate = some dDate := by
    intro b hb hbid
    rw [hgen] at hb
    unfold markArticlesIncluded at hb
    dsimp only at hb
    obtain ⟨c, hc, hcb⟩ := List.mem_map.mp hb
    have hcid : c.ident = a.ident := by
      rw [← hbid, ← hcb]
      by_cases hmem2 : c.ident ∈ (getArticlesForDigest maxA minQ s).map (fun x => x.ident)
      · simp [hmem2]
      · simp [hmem2]
    have hca : c = a := ident_inj_of_nodup hnodup hc hmem hcid
    subst hca
    rw [← hcb, if_pos haid]
    exact ⟨rfl, rfl⟩
  refine ⟨hmain, ?_,
    fun g pOk i s2 b hnd hb hinc => processItem_preserves_included g pOk i s2 b hnd hb hinc,
    fun mA mQ dd s2 b hnd hb hinc => generateDigest_preserves_included mA mQ dd s2 b hnd hb hinc,
    fun mA mQ today s2 => previewDigest_state mA mQ today s2⟩
  intro minQ' hin
  obtain ⟨c, hc, hcid⟩ := List.mem_map.mp hin
  rw [digestCandidates, List.mem_filter] at hc
  obtain ⟨hcmem, hcpred⟩ := hc
  rw [Bool.and_eq_true, Bool.not_eq_true'] at hcpred
  obtain ⟨h1, h2⟩ := hcpred
  have hinc := (hmain c hcmem hcid).1
  rw [hinc] at h1
  exact absurd h1 (by decide)

/-- Witness for C7 at a concrete input: the quality-8 article `wArticle` in a run
with `max = 10`, `min_quality = 7`. -/
theorem digest_exactly_once_witness :
    (∀ b ∈ (generateDigest 10 7 100 wDBDigest).2.articles, b.ident = wArticle.ident →
        b.includedInDigest = true ∧ b.digestDate = some 100)
    ∧ (∀ minQ' : Int, wArticle.ident ∉
        ((digestCandidates minQ' (generateDigest 10 7 100 wDBDigest).2).map
          (fun b => b.ident)))
    ∧ (∀ (g : Gemini) (pOk : Bool) (i : Nat) (s2 : DB) (b : Article),
        (s2.articles.map (fun x => x.ident)).Nodup → b ∈ s2.articles →
        b.includedInDigest = true →
        ∀ b' ∈ (processItem g pOk i s2).2.articles, b'.ident = b.ident →
          b'.includedInDigest = true ∧ b'.digestDate = b.digestDate)
    ∧ (∀ (mA : Nat) (mQ dd : Int) (s2 : DB) (b : Article),
        (s2.articles.map (fun x => x.ident)).Nodup → b ∈ s2.articles →
        b.includedInDigest = true →
        ∀ b' ∈ (generateDigest mA mQ dd s2).2.articles, b'.ident = b.ident →
          b'.includedInDigest = true ∧ b'.digestDate = b.digestDate)
    ∧ (∀ (mA : Nat) (mQ today : Int) (s2 : DB),
        (previewDigest mA mQ today s2).2 = s2) :=
  digest_exactly_once 10 7 100 wDBDigest wArticle 8 (by decide) (by decide)
    (by decide) (by decide) (by decide) (by decide)
